import Mathlib

/-
Shallow embedding of src/main.py, the Varetelling inventory application:
the InventoryItem / InventoryManager data model, CSV persistence,
the snapshot undo stack, and the import_csv reconciliation routine.
-/

/-- One inventory line (class InventoryItem in src/main.py).  The Python
constructor applies int() to the amount argument; items are built here
with the amount already an integer, and the string-to-int parse on the
load path is modelled separately by pyInt. -/
structure InventoryItem where
  ean : String
  amount : Int
  name : String
  popular : String
deriving DecidableEq

/-- Module constant FIELDNAMES of src/main.py. -/
def FIELDNAMES : List String := ["ean", "amount", "name", "popular"]

/-- In-memory state of class InventoryManager: the item collection and the
undo history (a Python list used as a stack: append at the end, pop from
the end).  The filename is fixed configuration and is omitted. -/
structure InventoryManager where
  items : List InventoryItem
  history : List (List InventoryItem)
deriving DecidableEq

/-- Value of an ASCII decimal digit character, none for any other
character. -/
def digitVal (c : Char) : Option Nat :=
  if '0' ≤ c ∧ c ≤ '9' then some (c.toNat - 48) else none

/-- Left-to-right accumulation of decimal digit characters onto acc;
none as soon as a non-digit appears. -/
def parseDigitsFrom (acc : Nat) : List Char → Option Nat
  | [] => some acc
  | c :: cs =>
    match digitVal c with
    | some d => parseDigitsFrom (10 * acc + d) cs
    | none => none

/-- ASCII whitespace, the characters Python str.strip removes from the
strings this program handles. -/
def isSpaceChar (c : Char) : Bool :=
  c = ' ' || c = '\t' || c = '\n' || c = '\r' || c = '\x0b' || c = '\x0c'

/-- Strip leading and trailing whitespace from a character list. -/
def trimChars (cs : List Char) : List Char :=
  ((cs.dropWhile isSpaceChar).reverse.dropWhile isSpaceChar).reverse

/-- Core of Python int() on a stripped character list: an optional sign
followed by at least one decimal digit; none models the ValueError.
(CPython additionally accepts underscores between digits; no string this
program writes contains one.) -/
def pyIntChars (cs : List Char) : Option Int :=
  match cs with
  | [] => none
  | c :: rest =>
    if c = '-' then
      if rest = [] then none
      else (parseDigitsFrom 0 rest).map (fun n => -(n : Int))
    else if c = '+' then
      if rest = [] then none
      else (parseDigitsFrom 0 rest).map (fun n => (n : Int))
    else (parseDigitsFrom 0 (c :: rest)).map (fun n => (n : Int))

/-- Models Python int(s) applied to a string: surrounding whitespace is
ignored, then an optional sign and decimal digits. -/
def pyInt (s : String) : Option Int :=
  pyIntChars (trimChars s.toList)

/-- Decimal digit character for a digit value below ten. -/
def digitChar (d : Nat) : Char := Char.ofNat (48 + d)

/-- Decimal digit characters of a natural number, most significant
first; this is Python str(n) for a non-negative n. -/
def natDigits (n : Nat) : List Char :=
  if _h : n < 10 then [digitChar n]
  else natDigits (n / 10) ++ [digitChar (n % 10)]
decreasing_by omega

/-- Models Python str() on an integer: a minus sign for negative values,
then the decimal digits of the absolute value. -/
def intRepr (i : Int) : String :=
  if i < 0 then String.mk ('-' :: natDigits i.natAbs)
  else String.mk (natDigits i.natAbs)

theorem digitVal_digitChar : ∀ d, d < 10 → digitVal (digitChar d) = some d := by
  decide

theorem digitChar_not_sign :
    ∀ d, d < 10 → digitChar d ≠ '-' ∧ digitChar d ≠ '+' := by
  decide

theorem isSpaceChar_digitChar : ∀ d, d < 10 → isSpaceChar (digitChar d) = false := by
  decide

theorem parseDigitsFrom_append (l1 l2 : List Char) (acc : Nat) :
    parseDigitsFrom acc (l1 ++ l2) =
      match parseDigitsFrom acc l1 with
      | some m => parseDigitsFrom m l2
      | none => none := by
  induction l1 generalizing acc with
  | nil => rfl
  | cons c cs ih =>
    simp only [List.cons_append, parseDigitsFrom]
    cases digitVal c with
    | none => rfl
    | some d => exact ih _

theorem natDigits_ne_nil (n : Nat) : natDigits n ≠ [] := by
  rw [natDigits]
  split
  · simp
  · simp

theorem natDigits_all_digits (n : Nat) :
    ∀ c ∈ natDigits n, ∃ d, d < 10 ∧ c = digitChar d := by
  induction n using Nat.strong_induction_on with
  | _ n ih =>
    rw [natDigits]
    split
    · intro c hc
      simp only [List.mem_singleton] at hc
      exact ⟨n, by omega, hc⟩
    · intro c hc
      rw [List.mem_append] at hc
      rcases hc with h1 | h2
      · exact ih (n / 10) (by omega) c h1
      · simp only [List.mem_singleton] at h2
        exact ⟨n % 10, by omega, h2⟩

theorem parseDigitsFrom_natDigits :
    ∀ n acc : Nat,
      parseDigitsFrom acc (natDigits n) =
        some (acc * 10 ^ (natDigits n).length + n) := by
  intro n
  induction n using Nat.strong_induction_on with
  | _ n ih =>
    intro acc
    rw [natDigits]
    split
    · simp only [parseDigitsFrom, digitVal_digitChar n (by omega)]
      simp only [List.length_singleton, pow_one]
      congr 1
      omega
    · rw [parseDigitsFrom_append]
      rw [ih (n / 10) (by omega) acc]
      simp only [parseDigitsFrom, digitVal_digitChar (n % 10) (by omega)]
      have hlen : (natDigits (n / 10) ++ [digitChar (n % 10)]).length =
          (natDigits (n / 10)).length + 1 := by
        simp
      rw [hlen, pow_succ]
      congr 1
      have hdm : 10 * (n / 10) + n % 10 = n := Nat.div_add_mod n 10
      have hA : acc * (10 ^ (natDigits (n / 10)).length * 10) =
          10 * (acc * 10 ^ (natDigits (n / 10)).length) := by ring
      omega

theorem dropWhile_eq_self_of_no_space (l : List Char)
    (h : ∀ c ∈ l, isSpaceChar c = false) : l.dropWhile isSpaceChar = l := by
  cases l with
  | nil => rfl
  | cons c cs =>
    rw [List.dropWhile_cons, h c (List.mem_cons_self c cs)]
    simp

theorem trimChars_eq_self (cs : List Char)
    (h : ∀ c ∈ cs, isSpaceChar c = false) : trimChars cs = cs := by
  unfold trimChars
  rw [dropWhile_eq_self_of_no_space cs h]
  rw [dropWhile_eq_self_of_no_space cs.reverse (by
    intro c hc
    exact h c (List.mem_reverse.mp hc))]
  exact List.reverse_reverse cs

theorem pyInt_intRepr (i : Int) : pyInt (intRepr i) = some i := by
  unfold pyInt intRepr
  by_cases hneg : i < 0
  · rw [if_pos hneg]
    have htoList : (String.mk ('-' :: natDigits i.natAbs)).toList =
        '-' :: natDigits i.natAbs := rfl
    rw [htoList]
    rw [trimChars_eq_self _ (by
      intro c hc
      rcases List.mem_cons.mp hc with h1 | h2
      · rw [h1]; rfl
      · obtain ⟨d, hd, hcd⟩ := natDigits_all_digits i.natAbs c h2
        rw [hcd]; exact isSpaceChar_digitChar d hd)]
    simp only [pyIntChars]
    rw [if_pos trivial, if_neg (natDigits_ne_nil i.natAbs)]
    rw [parseDigitsFrom_natDigits i.natAbs 0]
    have hsimp : 0 * 10 ^ (natDigits i.natAbs).length + i.natAbs = i.natAbs := by ring
    rw [hsimp]
    show some (-(i.natAbs : Int)) = some i
    congr 1
    omega
  · rw [if_neg hneg]
    have htoList : (String.mk (natDigits i.natAbs)).toList = natDigits i.natAbs := rfl
    rw [htoList]
    rw [trimChars_eq_self _ (by
      intro c hc
      obtain ⟨d, hd, hcd⟩ := natDigits_all_digits i.natAbs c hc
      rw [hcd]; exact isSpaceChar_digitChar d hd)]
    obtain ⟨c, cs, hcons⟩ : ∃ c cs, natDigits i.natAbs = c :: cs := by
      cases hd : natDigits i.natAbs with
      | nil => exact absurd hd (natDigits_ne_nil i.natAbs)
      | cons c cs => exact ⟨c, cs, rfl⟩
    obtain ⟨d, hd, hcd⟩ := natDigits_all_digits i.natAbs c
      (by rw [hcons]; exact List.mem_cons_self c cs)
    rw [hcons]
    simp only [pyIntChars]
    rw [if_neg (by rw [hcd]; exact (digitChar_not_sign d hd).1)]
    rw [if_neg (by rw [hcd]; exact (digitChar_not_sign d hd).2)]
    rw [← hcons, parseDigitsFrom_natDigits i.natAbs 0]
    have hsimp : 0 * 10 ^ (natDigits i.natAbs).length + i.natAbs = i.natAbs := by ring
    rw [hsimp]
    show some ((i.natAbs : Int)) = some i
    congr 1
    omega

/-- One data row of the persisted CSV file: the four cell strings in
FIELDNAMES order.  The csv module's quoting round-trips arbitrary cell
strings, so cells are modelled verbatim. -/
structure CsvRow where
  ean : String
  amount : String
  name : String
  popular : String
deriving DecidableEq

/-- The persisted CSV file: a header row followed by data rows. -/
structure CsvFile where
  header : List String
  rows : List CsvRow
deriving DecidableEq

/-- Embeds InventoryManager.save_inventory: a full rewrite of the file,
the FIELDNAMES header first, then one row per item in collection order;
the integer amount is written as its decimal string (Python str via the
csv writer). -/
def save_inventory (items : List InventoryItem) : CsvFile :=
  { header := FIELDNAMES,
    rows := items.map (fun item => ⟨item.ean, intRepr item.amount, item.name, item.popular⟩) }

/-- Row loop of InventoryManager.load_inventory: each row becomes an
InventoryItem, whose constructor applies int() to the amount cell; a
ValueError there aborts the load (none). -/
def loadRows : List CsvRow → Option (List InventoryItem)
  | [] => some []
  | row :: rest =>
    match pyInt row.amount with
    | none => none
    | some a =>
      match loadRows rest with
      | none => none
      | some items => some (InventoryItem.mk row.ean a row.name row.popular :: items)

/-- Embeds the existing-file branch of InventoryManager.load_inventory:
the DictReader keys each row by the header, which save_inventory always
writes as FIELDNAMES; a file with a different header makes the row field
accesses fail (none). -/
def load_inventory (f : CsvFile) : Option (List InventoryItem) :=
  if f.header = FIELDNAMES then loadRows f.rows else none

/-- Embeds InventoryManager.save_state: a deep copy of every item in the
current collection is appended to the history (Python list.append pushes
at the end of the stack). -/
def InventoryManager.save_state (m : InventoryManager) : InventoryManager :=
  let state := m.items.map
    (fun item => InventoryItem.mk item.ean item.amount item.name item.popular)
  { m with history := m.history ++ [state] }

/-- Observable outcome of InventoryManager.undo: the new manager state,
whether the nothing-to-undo warning was shown, and the collections passed
to save_inventory, in call order. -/
structure UndoOutcome where
  manager : InventoryManager
  nothingToUndo : Bool
  saveLog : List (List InventoryItem)
deriving DecidableEq

/-- Embeds InventoryManager.undo: an empty history shows the warning and
returns with no mutation and no save; otherwise Python history.pop()
yields the last snapshot (getLast) and removes it (dropLast), the
collection is replaced by the snapshot and save_inventory runs once. -/
def InventoryManager.undo (m : InventoryManager) : UndoOutcome :=
  match m.history.getLast? with
  | none => ⟨m, true, []⟩
  | some state => ⟨⟨state, m.history.dropLast⟩, false, [state]⟩

/-- Embeds InventoryManager.add_item: append then save_inventory.  The
second component is the save log: the collections written, in order. -/
def InventoryManager.add_item (m : InventoryManager) (item : InventoryItem) :
    InventoryManager × List (List InventoryItem) :=
  (⟨m.items ++ [item], m.history⟩, [m.items ++ [item]])

/-- Python list index semantics shared by item assignment and del:
negative indices count from the end of the list; none models the
IndexError raised for an out-of-range index. -/
def pyIndex (n : Nat) (i : Int) : Option Nat :=
  if 0 ≤ i then (if i < (n : Int) then some i.toNat else none)
  else (if -i ≤ (n : Int) then some (n - (-i).toNat) else none)

/-- Embeds InventoryManager.update_item: item assignment at the given
index then save_inventory; none models the IndexError. -/
def InventoryManager.update_item (m : InventoryManager) (index : Int)
    (item : InventoryItem) :
    Option (InventoryManager × List (List InventoryItem)) :=
  match pyIndex m.items.length index with
  | none => none
  | some j => some (⟨m.items.set j item, m.history⟩, [m.items.set j item])

/-- Embeds InventoryManager.delete_item: del at the given index then
save_inventory; none models the IndexError. -/
def InventoryManager.delete_item (m : InventoryManager) (index : Int) :
    Option (InventoryManager × List (List InventoryItem)) :=
  match pyIndex m.items.length index with
  | none => none
  | some j => some (⟨m.items.eraseIdx j, m.history⟩, [m.items.eraseIdx j])

/-- One row of the reconciliation batch file, as keyed by its DictReader:
the ean, amount (still a string, parsed per row) and name cells. -/
structure BatchRow where
  ean : String
  amount : String
  name : String
deriving DecidableEq

/-- The per-row warning dialogs of InventoryGUI.import_csv. -/
inductive ImportWarning where
  | skippedInvalidQuantity (ean : String)
  | clampedNegative (ean : String)
  | rejectedNegativeNewItem (ean : String)
deriving DecidableEq

/-- One iteration of the row loop of InventoryGUI.import_csv: parse the
amount (skip the row with a warning on ValueError); find the first item
with the row's ean and adjust its amount in place, clamping a negative
result to 0 with a warning; otherwise append a new item with default
popular marker N, unless the delta is negative, which is rejected with a
warning.  Returns the updated collection and the warning this row
showed, if any. -/
def processEntry (items : List InventoryItem) (row : BatchRow) :
    List InventoryItem × Option ImportWarning :=
  match pyInt row.amount with
  | none => (items, some (ImportWarning.skippedInvalidQuantity row.ean))
  | some amount_int =>
    match items.findIdx? (fun item => item.ean == row.ean) with
    | some i =>
      match items[i]? with
      | some existing_item =>
        if existing_item.amount + amount_int < 0 then
          (items.set i { existing_item with amount := 0 },
           some (ImportWarning.clampedNegative row.ean))
        else
          (items.set i { existing_item with amount := existing_item.amount + amount_int },
           none)
      | none => (items, none)
    | none =>
      if amount_int < 0 then
        (items, some (ImportWarning.rejectedNegativeNewItem row.ean))
      else
        (items ++ [InventoryItem.mk row.ean amount_int row.name "N"], none)

/-- The whole row loop of InventoryGUI.import_csv, accumulating the
warnings in the order they are shown. -/
def processRows (items : List InventoryItem) :
    List BatchRow → List InventoryItem × List ImportWarning
  | [] => (items, [])
  | row :: rest =>
    let step := processEntry items row
    let restResult := processRows step.1 rest
    (restResult.1, step.2.toList ++ restResult.2)

/-- Observable outcome of InventoryGUI.import_csv. -/
structure ImportOutcome where
  manager : InventoryManager
  warnings : List ImportWarning
  invalidSchema : Bool
  saveLog : List (List InventoryItem)
deriving DecidableEq

/-- Embeds InventoryGUI.import_csv on an opened batch file: the header is
checked against the literal expected list before any row is touched;
then the row loop runs over every row, and save_inventory is called once
at the end. -/
def import_csv (m : InventoryManager) (header : List String)
    (rows : List BatchRow) : ImportOutcome :=
  if header ≠ ["ean", "amount", "name"] then ⟨m, [], true, []⟩
  else
    let r := processRows m.items rows
    ⟨⟨r.1, m.history⟩, r.2, false, [r.1]⟩

/-- Embeds save_item, the inner function of InventoryGUI.item_window: an
empty field or a non-integer amount shows a warning and returns with no
mutation and no save; otherwise the entered item replaces the item at
the edited index (update_item) or is appended (add_item).  The index
handed over by the GUI is a valid non-negative position, so the
IndexError branch is never reached from the application. -/
def save_item (m : InventoryManager) (index : Option Int)
    (ean amount name popular : String) :
    InventoryManager × List (List InventoryItem) :=
  if ean = "" ∨ amount = "" ∨ name = "" ∨ popular = "" then (m, [])
  else
    match pyInt amount with
    | none => (m, [])
    | some amount_int =>
      match index with
      | some i =>
        match m.update_item i (InventoryItem.mk ean amount_int name popular) with
        | none => (m, [])
        | some r => r
      | none => m.add_item (InventoryItem.mk ean amount_int name popular)

theorem copy_items_eq (l : List InventoryItem) :
    l.map (fun item => InventoryItem.mk item.ean item.amount item.name item.popular) = l := by
  induction l with
  | nil => rfl
  | cons it rest ih => simp only [List.map_cons, ih]

theorem processRows_append (items : List InventoryItem) (xs ys : List BatchRow) :
    processRows items (xs ++ ys) =
      ((processRows (processRows items xs).1 ys).1,
       (processRows items xs).2 ++ (processRows (processRows items xs).1 ys).2) := by
  induction xs generalizing items with
  | nil => simp [processRows]
  | cons x xs ih =>
    simp only [List.cons_append, processRows, List.append_eq, ih, List.append_assoc]

/-- C1.  Reconciliation, matched-entry branch: a batch entry whose
amount parses to delta and whose ean has a first match at position i in
the collection updates exactly that item, its new amount being the old
amount plus delta, clamped to 0 with a ClampedNegative warning when the
sum is negative; the item's ean, name and popular fields are kept. -/
theorem c1_reconcile_matched (items : List InventoryItem) (row : BatchRow)
    (d : Int) (i : Nat) (it : InventoryItem)
    (hd : pyInt row.amount = some d)
    (hi : items.findIdx? (fun item => item.ean == row.ean) = some i)
    (hit : items[i]? = some it) :
    (processEntry items row).1 =
      items.set i (InventoryItem.mk it.ean
        (if it.amount + d < 0 then 0 else it.amount + d) it.name it.popular) ∧
    (processEntry items row).2 =
      (if it.amount + d < 0 then some (ImportWarning.clampedNegative row.ean) else none) := by
  simp only [processEntry, hd, hi, hit]
  by_cases hc : it.amount + d < 0 <;> simp [hc]

/-- Witness for c1_reconcile_matched at the clamp example of the spec. -/
theorem c1_reconcile_matched_witness :
    processEntry [InventoryItem.mk "123" 2 "Widget" "N"] (BatchRow.mk "123" "-5" "Widget") =
      ([InventoryItem.mk "123" 0 "Widget" "N"],
       some (ImportWarning.clampedNegative "123")) := by
  have h := c1_reconcile_matched [InventoryItem.mk "123" 2 "Widget" "N"]
    (BatchRow.mk "123" "-5" "Widget") (-5) 0 (InventoryItem.mk "123" 2 "Widget" "N")
    (by decide) (by decide) (by decide)
  rw [Prod.ext_iff]
  exact ⟨h.1.trans (by decide), h.2.trans (by decide)⟩

/-- C2.  Reconciliation, unmatched-entry branch: a batch entry whose ean
matches no item is rejected with a RejectedNegativeNewItem warning when
its delta is negative (no item is created), and otherwise appends
exactly one new item with that ean, amount equal to the delta, the
entry's name, and the not-popular marker N. -/
theorem c2_reconcile_unmatched (items : List InventoryItem) (row : BatchRow) (d : Int)
    (hd : pyInt row.amount = some d)
    (hnone : items.findIdx? (fun item => item.ean == row.ean) = none) :
    (d < 0 →
      processEntry items row = (items, some (ImportWarning.rejectedNegativeNewItem row.ean))) ∧
    (0 ≤ d →
      processEntry items row = (items ++ [InventoryItem.mk row.ean d row.name "N"], none)) := by
  simp only [processEntry, hd, hnone]
  constructor
  · intro h
    rw [if_pos h]
  · intro h
    rw [if_neg (by omega)]

/-- Witness for c2_reconcile_unmatched at the two examples of the spec. -/
theorem c2_reconcile_unmatched_witness :
    processEntry [] (BatchRow.mk "999" "4" "Ghost") =
      ([] ++ [InventoryItem.mk "999" 4 "Ghost" "N"], none) ∧
    processEntry [] (BatchRow.mk "999" "-1" "Ghost") =
      ([], some (ImportWarning.rejectedNegativeNewItem "999")) :=
  ⟨(c2_reconcile_unmatched [] (BatchRow.mk "999" "4" "Ghost") 4
      (by decide) (by decide)).2 (by decide),
   (c2_reconcile_unmatched [] (BatchRow.mk "999" "-1" "Ghost") (-1)
      (by decide) (by decide)).1 (by decide)⟩

/-- C3.  Batch schema rejection is wholesale and side-effect free: a
batch whose header is not the literal three expected columns yields the
InvalidBatchSchema outcome with the manager unchanged, no warnings, and
an empty save log, whatever the rows. -/
theorem c3_invalid_schema_rejected (m : InventoryManager) (header : List String)
    (rows : List BatchRow) (h : header ≠ ["ean", "amount", "name"]) :
    import_csv m header rows = ⟨m, [], true, []⟩ := by
  simp [import_csv, h]

/-- Witness for c3_invalid_schema_rejected at the header of the spec
example. -/
theorem c3_invalid_schema_rejected_witness :
    import_csv ⟨[], []⟩ ["id", "qty", "label"] [] = ⟨⟨[], []⟩, [], true, []⟩ :=
  c3_invalid_schema_rejected ⟨[], []⟩ ["id", "qty", "label"] [] (by decide)

/-- C4.  Per-row fault tolerance: a batch entry whose amount does not
parse as an integer is recorded as a SkippedInvalidQuantity warning and
leaves the collection untouched, and the row loop continues: around such
an entry, the final collection is the one of the batch without it, and
the warning is inserted between the warnings of the surrounding rows. -/
theorem c4_invalid_quantity_skipped (items : List InventoryItem) (row : BatchRow)
    (pre post : List BatchRow) (hbad : pyInt row.amount = none) :
    processEntry items row = (items, some (ImportWarning.skippedInvalidQuantity row.ean)) ∧
    (processRows items (pre ++ row :: post)).1 = (processRows items (pre ++ post)).1 ∧
    (processRows items (pre ++ row :: post)).2 =
      (processRows items pre).2 ++
        ImportWarning.skippedInvalidQuantity row.ean ::
          (processRows (processRows items pre).1 post).2 := by
  have hstep : ∀ its : List InventoryItem, processEntry its row =
      (its, some (ImportWarning.skippedInvalidQuantity row.ean)) := by
    intro its
    simp only [processEntry, hbad]
  refine ⟨hstep items, ?_, ?_⟩
  · rw [processRows_append, processRows_append]
    simp [processRows, hstep]
  · rw [processRows_append]
    simp [processRows, hstep]

/-- Witness for c4_invalid_quantity_skipped on a one-row batch with a
non-numeric amount. -/
theorem c4_invalid_quantity_skipped_witness :
    processEntry [] (BatchRow.mk "123" "abc" "Widget") =
      ([], some (ImportWarning.skippedInvalidQuantity "123")) ∧
    (processRows [] ([] ++ BatchRow.mk "123" "abc" "Widget" :: [])).1 =
      (processRows [] ([] ++ [])).1 ∧
    (processRows [] ([] ++ BatchRow.mk "123" "abc" "Widget" :: [])).2 =
      (processRows [] []).2 ++
        ImportWarning.skippedInvalidQuantity "123" ::
          (processRows (processRows [] []).1 []).2 :=
  c4_invalid_quantity_skipped [] (BatchRow.mk "123" "abc" "Widget") [] [] (by decide)

/-- C5.  Batch-then-save: on a schema-valid batch the save log of
import_csv is exactly one save, whose content is the collection after
all rows have been processed, and no schema error is signalled. -/
theorem c5_single_save_after_batch (m : InventoryManager) (rows : List BatchRow) :
    (import_csv m ["ean", "amount", "name"] rows).saveLog =
      [(processRows m.items rows).1] ∧
    (import_csv m ["ean", "amount", "name"] rows).manager.items =
      (processRows m.items rows).1 ∧
    (import_csv m ["ean", "amount", "name"] rows).invalidSchema = false := by
  simp [import_csv]

/-- C6.  Undo round-trip: whatever the prior history, after save_state
pushes a snapshot and the collection is then replaced by an arbitrary
function of it (covering any in-place mutation of items), one undo
restores exactly the collection at the moment of the push — equality of
item lists is structural, i.e. element-wise field equality — pops that
snapshot off the history, and saves the restored collection once. -/
theorem c6_undo_round_trip (m : InventoryManager)
    (mutate : List InventoryItem → List InventoryItem) :
    (InventoryManager.undo ⟨mutate m.save_state.items, m.save_state.history⟩).manager.items
        = m.items ∧
    (InventoryManager.undo ⟨mutate m.save_state.items, m.save_state.history⟩).nothingToUndo
        = false ∧
    (InventoryManager.undo ⟨mutate m.save_state.items, m.save_state.history⟩).manager.history
        = m.history ∧
    (InventoryManager.undo ⟨mutate m.save_state.items, m.save_state.history⟩).saveLog
        = [m.items] := by
  have hs : m.save_state.history = m.history ++ [m.items] := by
    unfold InventoryManager.save_state
    simp [copy_items_eq]
  have hu : InventoryManager.undo ⟨mutate m.save_state.items, m.save_state.history⟩ =
      ⟨⟨m.items, m.history⟩, false, [m.items]⟩ := by
    unfold InventoryManager.undo
    rw [hs]
    simp
  rw [hu]
  exact ⟨rfl, rfl, rfl, rfl⟩

/-- C7.  Undo on empty history: with an empty undo stack, undo shows the
nothing-to-undo warning, leaves the manager untouched and calls no
save. -/
theorem c7_undo_empty_history (m : InventoryManager) (h : m.history = []) :
    m.undo = ⟨m, true, []⟩ := by
  unfold InventoryManager.undo
  rw [h]
  rfl

/-- Witness for c7_undo_empty_history on a one-item manager. -/
theorem c7_undo_empty_history_witness :
    InventoryManager.undo ⟨[InventoryItem.mk "1" 1 "A" "N"], []⟩ =
      ⟨⟨[InventoryItem.mk "1" 1 "A" "N"], []⟩, true, []⟩ :=
  c7_undo_empty_history ⟨[InventoryItem.mk "1" 1 "A" "N"], []⟩ rfl

theorem loadRows_map_save (items : List InventoryItem) :
    loadRows (items.map (fun item =>
      CsvRow.mk item.ean (intRepr item.amount) item.name item.popular)) = some items := by
  induction items with
  | nil => rfl
  | cons it rest ih =>
    simp only [List.map_cons, loadRows, pyInt_intRepr, ih]

/-- C8.  Persistence round-trip: saving a well-formed collection (all
fields non-empty) and loading the resulting file yields the same
collection — same eans, amounts, names and popular markers, in the same
order. -/
theorem c8_persistence_round_trip (items : List InventoryItem)
    (_h : ∀ it ∈ items, it.ean ≠ "" ∧ it.name ≠ "" ∧ it.popular ≠ "") :
    load_inventory (save_inventory items) = some items := by
  unfold load_inventory save_inventory
  rw [if_pos rfl]
  exact loadRows_map_save items

/-- Witness for c8_persistence_round_trip on a one-item collection. -/
theorem c8_persistence_round_trip_witness :
    load_inventory (save_inventory [InventoryItem.mk "123" 5 "Widget" "Y"]) =
      some [InventoryItem.mk "123" 5 "Widget" "Y"] :=
  c8_persistence_round_trip [InventoryItem.mk "123" 5 "Widget" "Y"] (by decide)

/-- C9, counterexample: the manual-entry path save_item performs no sign
check on the amount, so adding an item with amount -5 is accepted and
the written collection (the save log entry) contains an item with a
negative amount, contradicting the claimed invariant for the add
operation. -/
theorem c9_counterexample :
    save_item (InventoryManager.mk [] []) none "1" "-5" "Widget" "N" =
      (InventoryManager.mk [InventoryItem.mk "1" (-5) "Widget" "N"] [],
       [[InventoryItem.mk "1" (-5) "Widget" "N"]]) ∧
    (InventoryItem.mk "1" (-5) "Widget" "N").amount < 0 := by
  decide

theorem processEntry_nonneg (items : List InventoryItem) (row : BatchRow)
    (h : ∀ it ∈ items, 0 ≤ it.amount) :
    ∀ it ∈ (processEntry items row).1, 0 ≤ it.amount := by
  cases hp : pyInt row.amount with
  | none => simpa [processEntry, hp] using h
  | some d =>
    cases hf : items.findIdx? (fun item => item.ean == row.ean) with
    | none =>
      by_cases hc : d < 0
      · simpa [processEntry, hp, hf, hc] using h
      · simp only [processEntry, hp, hf, if_neg hc]
        intro it hmem
        rcases List.mem_append.mp hmem with hm | hs
        · exact h it hm
        · rw [List.mem_singleton.mp hs]
          show (0 : Int) ≤ d
          omega
    | some i =>
      cases hg : items[i]? with
      | none => simpa [processEntry, hp, hf, hg] using h
      | some existing =>
        by_cases hc : existing.amount + d < 0
        · simp only [processEntry, hp, hf, hg, if_pos hc]
          intro it hmem
          rcases List.mem_or_eq_of_mem_set hmem with hm | he
          · exact h it hm
          · rw [he]
        · simp only [processEntry, hp, hf, hg, if_neg hc]
          intro it hmem
          rcases List.mem_or_eq_of_mem_set hmem with hm | he
          · exact h it hm
          · rw [he]
            show (0 : Int) ≤ existing.amount + d
            omega

theorem processRows_nonneg (rows : List BatchRow) :
    ∀ items : List InventoryItem, (∀ it ∈ items, 0 ≤ it.amount) →
      ∀ it ∈ (processRows items rows).1, 0 ≤ it.amount := by
  induction rows with
  | nil =>
    intro items h
    simpa [processRows] using h
  | cons row rest ih =>
    intro items h
    simp only [processRows]
    exact ih _ (processEntry_nonneg items row h)

/-- C9, amended: the non-negative-amount invariant is preserved by
reconciliation (import_csv never writes a negative amount), by delete,
and by undo-restore whenever every stored snapshot satisfies it; add and
update preserve it only under the extra assumption that the written item
has a non-negative amount — the manual-entry form enforces no such sign
check, so they do not preserve it unconditionally. -/
theorem c9_nonneg_invariant_amended (m : InventoryManager)
    (hinv : ∀ it ∈ m.items, 0 ≤ it.amount)
    (hhist : ∀ s ∈ m.history, ∀ it ∈ s, 0 ≤ it.amount) :
    (∀ (header : List String) (rows : List BatchRow),
      ∀ it ∈ (import_csv m header rows).manager.items, 0 ≤ it.amount) ∧
    (∀ (i : Int) (r : InventoryManager × List (List InventoryItem)),
      m.delete_item i = some r → ∀ it ∈ r.1.items, 0 ≤ it.amount) ∧
    (∀ it ∈ m.undo.manager.items, 0 ≤ it.amount) ∧
    (∀ item : InventoryItem, 0 ≤ item.amount →
      ∀ it ∈ (m.add_item item).1.items, 0 ≤ it.amount) ∧
    (∀ (i : Int) (item : InventoryItem) (r : InventoryManager × List (List InventoryItem)),
      0 ≤ item.amount → m.update_item i item = some r →
        ∀ it ∈ r.1.items, 0 ≤ it.amount) := by
  refine ⟨?_, ?_, ?_, ?_, ?_⟩
  · intro header rows
    unfold import_csv
    by_cases hx : header ≠ ["ean", "amount", "name"]
    · rw [if_pos hx]
      exact hinv
    · rw [if_neg hx]
      exact processRows_nonneg rows m.items hinv
  · intro i r hr
    unfold InventoryManager.delete_item at hr
    cases hj : pyIndex m.items.length i with
    | none => rw [hj] at hr; cases hr
    | some j =>
      rw [hj] at hr
      cases hr
      exact fun it hm => hinv it (List.eraseIdx_subset m.items j hm)
  · rcases List.eq_nil_or_concat m.history with hnil | ⟨pre, s, hps⟩
    · unfold InventoryManager.undo
      rw [hnil]
      exact hinv
    · have hu : m.undo = ⟨⟨s, pre⟩, false, [s]⟩ := by
        unfold InventoryManager.undo
        rw [hps]
        simp
      rw [hu]
      exact hhist s (by rw [hps]; simp)
  · intro item hitem it hmem
    rcases List.mem_append.mp hmem with hm | hs
    · exact hinv it hm
    · rw [List.mem_singleton.mp hs]
      exact hitem
  · intro i item r hitem hr
    unfold InventoryManager.update_item at hr
    cases hj : pyIndex m.items.length i with
    | none => rw [hj] at hr; cases hr
    | some j =>
      rw [hj] at hr
      cases hr
      intro it hmem
      rcases List.mem_or_eq_of_mem_set hmem with hm | he
      · exact hinv it hm
      · rw [he]
        exact hitem

/-- Witness for c9_nonneg_invariant_amended: the new-item reconciliation
example of the spec keeps amounts non-negative. -/
theorem c9_nonneg_invariant_amended_witness :
    0 ≤ (InventoryItem.mk "999" 4 "Ghost" "N").amount := by
  have h := c9_nonneg_invariant_amended ⟨[], []⟩ (by decide) (by decide)
  exact h.1 ["ean", "amount", "name"] [BatchRow.mk "999" "4" "Ghost"]
    (InventoryItem.mk "999" 4 "Ghost" "N") (by decide)

theorem pyIndex_neg (n : Nat) (p : Int) (hlow : -(n : Int) ≤ p) (hneg : p < 0) :
    pyIndex n p = some ((n : Int) + p).toNat := by
  unfold pyIndex
  rw [if_neg (by omega), if_pos (by omega)]
  congr 1
  omega

theorem pyIndex_none_iff (n : Nat) (q : Int) :
    pyIndex n q = none ↔ ((n : Int) ≤ q ∨ q < -(n : Int)) := by
  unfold pyIndex
  by_cases h0 : 0 ≤ q
  · rw [if_pos h0]
    by_cases h1 : q < (n : Int)
    · rw [if_pos h1]
      exact iff_of_false (by simp) (by omega)
    · rw [if_neg h1]
      exact iff_of_true rfl (by omega)
  · rw [if_neg h0]
    by_cases h1 : -q ≤ (n : Int)
    · rw [if_pos h1]
      exact iff_of_false (by simp) (by omega)
    · rw [if_neg h1]
      exact iff_of_true rfl (by omega)

theorem update_item_none_iff (m : InventoryManager) (q : Int) (item : InventoryItem) :
    m.update_item q item = none ↔ pyIndex m.items.length q = none := by
  unfold InventoryManager.update_item
  cases pyIndex m.items.length q <;> simp

theorem delete_item_none_iff (m : InventoryManager) (q : Int) :
    m.delete_item q = none ↔ pyIndex m.items.length q = none := by
  unfold InventoryManager.delete_item
  cases pyIndex m.items.length q <;> simp

/-- C10.  Implicit index contract: for a collection of length n and a
position p with -n ≤ p < 0, update_item replaces the item at index n + p
and delete_item removes the item at index n + p, each saving the result;
and for any position q, the IndexError outcome arises exactly when
q ≥ n or q < -n. -/
theorem c10_negative_index_contract (m : InventoryManager) (item : InventoryItem)
    (p : Int) (hlow : -(m.items.length : Int) ≤ p) (hneg : p < 0) :
    m.update_item p item =
      some (⟨m.items.set ((m.items.length : Int) + p).toNat item, m.history⟩,
            [m.items.set ((m.items.length : Int) + p).toNat item]) ∧
    m.delete_item p =
      some (⟨m.items.eraseIdx ((m.items.length : Int) + p).toNat, m.history⟩,
            [m.items.eraseIdx ((m.items.length : Int) + p).toNat]) ∧
    (∀ q : Int, m.update_item q item = none ↔
        ((m.items.length : Int) ≤ q ∨ q < -(m.items.length : Int))) ∧
    (∀ q : Int, m.delete_item q = none ↔
        ((m.items.length : Int) ≤ q ∨ q < -(m.items.length : Int))) := by
  have hidx := pyIndex_neg m.items.length p hlow hneg
  refine ⟨?_, ?_, ?_, ?_⟩
  · unfold InventoryManager.update_item
    rw [hidx]
  · unfold InventoryManager.delete_item
    rw [hidx]
  · intro q
    rw [update_item_none_iff, pyIndex_none_iff]
  · intro q
    rw [delete_item_none_iff, pyIndex_none_iff]

/-- Witness for c10_negative_index_contract on a two-item collection at
position -1, plus an out-of-range position. -/
theorem c10_negative_index_contract_witness :
    InventoryManager.update_item
        ⟨[InventoryItem.mk "1" 1 "A" "N", InventoryItem.mk "2" 2 "B" "N"], []⟩ (-1)
        (InventoryItem.mk "3" 3 "C" "N") =
      some (⟨[InventoryItem.mk "1" 1 "A" "N", InventoryItem.mk "3" 3 "C" "N"], []⟩,
            [[InventoryItem.mk "1" 1 "A" "N", InventoryItem.mk "3" 3 "C" "N"]]) ∧
    InventoryManager.delete_item
        ⟨[InventoryItem.mk "1" 1 "A" "N", InventoryItem.mk "2" 2 "B" "N"], []⟩ (-1) =
      some (⟨[InventoryItem.mk "1" 1 "A" "N"], []⟩, [[InventoryItem.mk "1" 1 "A" "N"]]) ∧
    InventoryManager.update_item
        ⟨[InventoryItem.mk "1" 1 "A" "N", InventoryItem.mk "2" 2 "B" "N"], []⟩ (-3)
        (InventoryItem.mk "3" 3 "C" "N") = none := by
  have h := c10_negative_index_contract
    ⟨[InventoryItem.mk "1" 1 "A" "N", InventoryItem.mk "2" 2 "B" "N"], []⟩
    (InventoryItem.mk "3" 3 "C" "N") (-1) (by decide) (by decide)
  refine ⟨h.1.trans (by decide), h.2.1.trans (by decide), ?_⟩
  exact (h.2.2.1 (-3)).mpr (by decide)
